import Mathlib

/- Shallow embedding of src/core/eth/subscribe_blobs.go (package eth).

   Modelling conventions:
   - transaction hashes, block hashes and account addresses are abstract
     natural numbers;
   - wall-clock time is an abstract Nat tick (standing for seconds);
   - big.Int quantities are Nat, with an explicit % 2^64 wherever the Go
     code truncates through Uint64();
   - float64 "Gwei" conversions (division by params.GWei = 1e9) are
     modelled as exact rationals;
   - sender recovery (gethtypes.Sender with the fixed Cancun signer and
     chain id) is deterministic per transaction, so it is modelled as an
     Option field of the transaction (none = recovery error);
   - the chain-state point queries made during one reconciliation pass
     (TransactionReceipt, NonceAtHash at the new head) are an oracle
     carried by the head event (none = lookup error / not found). -/

def U64 : Nat := 2 ^ 64

/- gethtypes.BlobTxType = 0x03. -/
def BlobTxType : Nat := 3

/- float64(x.Uint64()) / params.GWei, as an exact rational. -/
def gweiQ (x : Nat) : ℚ := ((x % U64 : Nat) : ℚ) / 1000000000

/- The fields of *gethtypes.Transaction that subscribe_blobs.go reads. -/
structure Tx where
  typ : Nat
  hash : Nat
  nonce : Nat
  blobHashes : List Nat
  blobGasFeeCap : Nat
  gasFeeCap : Nat
  gasTipCap : Nat
  blobGas : Nat
  gas : Nat
  sender : Option Nat
deriving DecidableEq, Repr

/- The fields of *gethtypes.Receipt that the reconciliation loop reads. -/
structure Receipt where
  blockHash : Nat
  blockNumber : Nat
deriving DecidableEq, Repr

/- The fields of *gethtypes.Header that subscribe_blobs.go reads.
   excessBlobGas = none models h.ExcessBlobGas == nil.  extra is the
   builder text; Lean strings are always valid UTF-8, so the
   strings.ToValidUTF8 sanitisation is the identity here. -/
structure Header where
  hash : Nat
  number : Nat
  time : Nat
  baseFee : Nat
  excessBlobGas : Option Nat
  extra : String
deriving DecidableEq, Repr

/- Point-query oracle for the chain state as of one new head:
   receiptOf h = result of ec.TransactionReceipt (none = err != nil),
   nonceAt a = result of ec.NonceAtHash(acc, head.Hash()) (none = err). -/
structure Chain where
  receiptOf : Nat → Option Receipt
  nonceAt : Nat → Option Nat

/- Record types persisted by the program (subscribe_blobs.go lines 34-66). -/

structure TxData where
  txHash : Nat
  blobGasFeeCapGwei : ℚ
  blobGas : Nat
  blobCount : Nat
  gasFeeCapGwei : ℚ
  gasTipCapGwei : ℚ
  gas : Nat
  account : Nat
deriving DecidableEq, Repr

structure BlockData where
  blockHash : Nat
  blockNumber : Nat
  blockTime : Nat
  blobBaseFeeWei : Nat
  baseFeeGwei : ℚ
  builder : String
deriving DecidableEq, Repr

/- TxTime is a time.Time rendered to a string in Go; with abstract Nat
   timestamps (whose rendering is injective) we keep the tick itself. -/
structure TxMetricsData where
  account : Nat
  blobCount : Nat
  blobGasFeeCap : Nat
  txTime : Nat
deriving DecidableEq, Repr

structure TxInclusionData where
  account : Nat
  blobCount : Nat
  inclusionDelay : ℚ
  gasTipGwei : ℚ
deriving DecidableEq, Repr

/- Association lists with Go-map insert/lookup/delete semantics. -/

def insertA {α β : Type} [DecidableEq α] : List (α × β) → α → β → List (α × β)
  | [], k, v => [(k, v)]
  | p :: l, k, v => if p.1 = k then (k, v) :: l else p :: insertA l k v

def lookupA {α β : Type} [DecidableEq α] : List (α × β) → α → Option β
  | [], _ => none
  | p :: l, k => if p.1 = k then some p.2 else lookupA l k

/- go-ethereum consensus/misc/eip4844: fakeExponential(factor, numerator,
   denominator) — the Taylor-series loop approximating
   factor * e^(numerator/denominator), on big.Int.
   The den = 0 and i = 0 exits are dead at every call site (den is the
   nonzero protocol constant, i starts at 1 and only increases); they are
   here so the recursion is well founded for all arguments. -/
def fakeExpGo (num den : Nat) (i accum output : Nat) : Nat :=
  if accum = 0 then output
  else if den = 0 then output
  else if i = 0 then output
  else fakeExpGo num den (i + 1) (accum * num / den / i) (output + accum)
termination_by (num / den + 1 - i, accum)
decreasing_by
  rename_i haccum hden hi
  by_cases hle : i ≤ num / den
  · exact Prod.Lex.left _ _ (by omega)
  · have h1 : num / den + 1 - (i + 1) = 0 := by omega
    have h2 : num / den + 1 - i = 0 := by omega
    rw [h1, h2]
    have hdp : 0 < den := Nat.pos_of_ne_zero hden
    have hni : num < den * i := by
      have h3 : num < i * den := (Nat.div_lt_iff_lt_mul hdp).mp (by omega)
      rwa [Nat.mul_comm] at h3
    have hlt : accum * num / den / i < accum := by
      rw [Nat.div_div_eq_div_mul]
      exact (Nat.div_lt_iff_lt_mul (by positivity)).mpr
        (mul_lt_mul_of_pos_left hni (Nat.pos_of_ne_zero haccum))
    exact Prod.Lex.right _ hlt

def fakeExponential (factor num den : Nat) : Nat :=
  fakeExpGo num den 1 (factor * den) 0 / den

/- params.BlobTxMinBlobGasprice and params.BlobTxBlobGaspriceUpdateFraction
   (Cancun), as used by eip4844.CalcBlobFee. -/
def minBlobGasPrice : Nat := 1
def blobGaspriceUpdateFraction : Nat := 3338477

/- eip4844.CalcBlobFee(excessBlobGas). -/
def calcBlobFee (excessBlobGas : Nat) : Nat :=
  fakeExponential minBlobGasPrice excessBlobGas blobGaspriceUpdateFraction

/- func txData(tx, chainID) TxData (lines 235-252).  On sender-recovery
   failure it returns the Go zero value TxData{}. -/
def TxData.zero : TxData :=
  { txHash := 0, blobGasFeeCapGwei := 0, blobGas := 0, blobCount := 0
    gasFeeCapGwei := 0, gasTipCapGwei := 0, gas := 0, account := 0 }

def txData (tx : Tx) : TxData :=
  match tx.sender with
  | none => TxData.zero
  | some acc =>
    { txHash := tx.hash
      blobGasFeeCapGwei := gweiQ tx.blobGasFeeCap
      blobGas := tx.blobGas
      blobCount := tx.blobHashes.length
      gasFeeCapGwei := gweiQ tx.gasFeeCap
      gasTipCapGwei := gweiQ tx.gasTipCap
      gas := tx.gas
      account := acc }

/- func recordTxMetrics (lines 254-268): on sender-recovery failure the
   list is returned unchanged, otherwise one record is appended. -/
def recordTxMetrics (l : List TxMetricsData) (tx : Tx) (t : Nat) : List TxMetricsData :=
  match tx.sender with
  | none => l
  | some acc =>
    l ++ [{ account := acc, blobCount := tx.blobHashes.length
            blobGasFeeCap := tx.blobGasFeeCap % U64, txTime := t }]

/- func recordTxInclusion (lines 270-287).  tx.GasTipCap().Float64() reads
   the full big.Int (no Uint64 truncation), hence the plain cast. -/
def recordTxInclusion (l : List TxInclusionData) (tx : Tx) (delay : Nat) : List TxInclusionData :=
  match tx.sender with
  | none => l
  | some acc =>
    l ++ [{ account := acc, blobCount := tx.blobHashes.length
            inclusionDelay := (delay : ℚ)
            gasTipGwei := (tx.gasTipCap : ℚ) / 1000000000 }]

/- The mutable state of main's event loop (lines 96-103).  terminal is
   specification-only ghost instrumentation: the hashes that have received
   a terminal classification (included or superseded) so far; the Go code
   does not store it, but the spec's mutual-exclusion invariant quantifies
   over it. -/
structure S where
  currBaseFee : Nat
  pendingTxs : List (Nat × Tx)
  txTime : List (Nat × Nat)
  txDataList : List TxData
  blockDataList : List BlockData
  txMetricsList : List TxMetricsData
  txInclusionList : List TxInclusionData
  terminal : List Nat
deriving DecidableEq, Repr

/- State at loop entry: currBaseFee = new(big.Int) = 0, empty maps, the
   four collections seeded with whatever loadDataFromFile returned. -/
def startState (td : List TxData) (bd : List BlockData)
    (tm : List TxMetricsData) (ti : List TxInclusionData) : S :=
  { currBaseFee := 0, pendingTxs := [], txTime := [], txDataList := td
    blockDataList := bd, txMetricsList := tm, txInclusionList := ti
    terminal := [] }

def initS : S := startState [] [] [] []

/- case tx := <-txChan (lines 135-146). -/
def stepTx (s : S) (tx : Tx) (now : Nat) : S :=
  if tx.typ = BlobTxType then
    { s with
      txTime := insertA s.txTime tx.hash now
      txMetricsList := recordTxMetrics s.txMetricsList tx now
      pendingTxs := insertA s.pendingTxs tx.hash tx
      txDataList := s.txDataList ++ [txData tx] }
  else s

/- Classification outcome of one pending entry in one pass (spec 4.4).
   pendingErr covers the two error continues: sender recovery failed, or
   the nonce lookup failed. -/
inductive Outcome
  | included
  | superseded
  | blocked
  | viable
  | notViable
  | pendingErr
deriving DecidableEq, Repr

/- err == nil && r.BlockHash == h.Hash() (line 171). -/
def includedAt (c : Chain) (h : Header) (k : Nat) : Bool :=
  match c.receiptOf k with
  | some r => r.blockHash = h.hash
  | none => false

/- The classification decision of the loop body (lines 169-207) for one
   entry (map key, transaction), as a pure function of the chain oracle,
   the new head and the base fee current during this pass. -/
def classifyEntry (c : Chain) (h : Header) (baseFee : Nat) (e : Nat × Tx) : Outcome :=
  if includedAt c h e.1 then .included
  else
    match e.2.sender with
    | none => .pendingErr
    | some acc =>
      match c.nonceAt acc with
      | none => .pendingErr
      | some currNonce =>
        if e.2.nonce < currNonce then .superseded
        else if e.2.nonce ≠ currNonce then .blocked
        else if baseFee ≤ e.2.blobGasFeeCap then .viable
        else .notViable

/- Per-pass accumulator: the three counters of lines 165-167, the keys
   deleted from pendingTxs/txTime, and the evolving txInclusionList. -/
structure PassResult where
  blobsIncluded : Nat
  viableTxs : Nat
  viableBlobs : Nat
  removed : List Nat
  inclusionList : List TxInclusionData
deriving DecidableEq, Repr

/- One iteration of the range loop (lines 169-208).  time.Since(txTime[hash])
   is now - txTime[hash], with the Go zero time for a missing key. -/
def passStep (c : Chain) (h : Header) (baseFee : Nat) (times : List (Nat × Nat))
    (now : Nat) (acc : PassResult) (e : Nat × Tx) : PassResult :=
  match classifyEntry c h baseFee e with
  | .included =>
    { acc with
      inclusionList := recordTxInclusion acc.inclusionList e.2 (now - ((lookupA times e.1).getD 0))
      blobsIncluded := acc.blobsIncluded + e.2.blobHashes.length
      removed := acc.removed ++ [e.1] }
  | .superseded => { acc with removed := acc.removed ++ [e.1] }
  | .viable =>
    { acc with viableTxs := acc.viableTxs + 1
               viableBlobs := acc.viableBlobs + e.2.blobHashes.length }
  | _ => acc

/- The whole range loop over the pending map.  Each iteration deletes at
   most its own key and never reads the map, so iterating the snapshot
   list and filtering the deletions afterwards is faithful. -/
def processPass (c : Chain) (h : Header) (baseFee : Nat) (times : List (Nat × Nat))
    (now : Nat) (incl : List TxInclusionData) (entries : List (Nat × Tx)) : PassResult :=
  entries.foldl (passStep c h baseFee times now)
    { blobsIncluded := 0, viableTxs := 0, viableBlobs := 0, removed := []
      inclusionList := incl }

/- Lines 149-151: the base fee in force during the pass for head h. -/
def baseFeeAfter (s : S) (h : Header) : Nat :=
  match h.excessBlobGas with
  | some e => calcBlobFee e
  | none => s.currBaseFee

def headPass (s : S) (h : Header) (c : Chain) (now : Nat) : PassResult :=
  processPass c h (baseFeeAfter s h) s.txTime now s.txInclusionList s.pendingTxs

/- case h := <-hdrChan (lines 148-222).  BlockNumber is stored through
   h.Number.Uint64() (line 154), hence the % U64; h.Time is already a
   uint64 in the Go header. -/
def stepHead (s : S) (h : Header) (c : Chain) (now : Nat) : S :=
  let baseFee := baseFeeAfter s h
  let bd : BlockData :=
    { blockHash := h.hash, blockNumber := h.number % U64, blockTime := h.time
      blobBaseFeeWei := baseFee % U64, baseFeeGwei := gweiQ h.baseFee
      builder := h.extra }
  let pass := headPass s h c now
  { currBaseFee := baseFee
    pendingTxs := s.pendingTxs.filter (fun p => p.1 ∉ pass.removed)
    txTime := s.txTime.filter (fun p => p.1 ∉ pass.removed)
    txDataList := s.txDataList
    blockDataList := s.blockDataList ++ [bd]
    txMetricsList := s.txMetricsList
    txInclusionList := pass.inclusionList
    terminal := s.terminal ++ pass.removed }

/- An event of the select loop.  Head events carry the chain oracle as of
   that head; both carry the current wall-clock tick. -/
inductive Event
  | txEv (tx : Tx) (now : Nat)
  | headEv (h : Header) (c : Chain) (now : Nat)

def step (s : S) : Event → S
  | .txEv tx now => stepTx s tx now
  | .headEv h c now => stepHead s h c now

def run (s : S) (evs : List Event) : S := evs.foldl step s

theorem fakeExpGo_zero (num den i output : Nat) :
    fakeExpGo num den i 0 output = output := by
  rw [fakeExpGo]
  simp

theorem fakeExpGo_step (num den i accum output : Nat)
    (h1 : accum ≠ 0) (h2 : den ≠ 0) (h3 : i ≠ 0) :
    fakeExpGo num den i accum output =
      fakeExpGo num den (i + 1) (accum * num / den / i) (output + accum) := by
  rw [fakeExpGo]
  simp [h1, h2, h3]

/- Helper lemmas about the Go-map association lists. -/

theorem keys_insertA {α β : Type} [DecidableEq α] (l : List (α × β)) (k : α) (v : β) :
    (insertA l k v).map Prod.fst =
      if k ∈ l.map Prod.fst then l.map Prod.fst else l.map Prod.fst ++ [k] := by
  induction l with
  | nil => simp [insertA]
  | cons p l ih =>
    by_cases hpk : p.1 = k
    · simp [insertA, hpk]
    · simp only [insertA, if_neg hpk, List.map_cons, ih]
      by_cases hk : k ∈ l.map Prod.fst <;>
        simp [hk, Ne.symm hpk, hpk]

theorem lookupA_insertA_self {α β : Type} [DecidableEq α] (l : List (α × β)) (k : α) (v : β) :
    lookupA (insertA l k v) k = some v := by
  induction l with
  | nil => simp [insertA, lookupA]
  | cons p l ih =>
    by_cases hpk : p.1 = k
    · simp [insertA, hpk, lookupA]
    · simp [insertA, hpk, lookupA, ih]

theorem nodup_keys_unique {α β : Type} [DecidableEq α] {l : List (α × β)} {k : α} {x y : β}
    (hnd : (l.map Prod.fst).Nodup) (hx : (k, x) ∈ l) (hy : (k, y) ∈ l) : x = y := by
  induction l with
  | nil => cases hx
  | cons p l ih =>
    simp only [List.map_cons, List.nodup_cons] at hnd
    rcases List.mem_cons.mp hx with hx1 | hx1 <;>
      rcases List.mem_cons.mp hy with hy1 | hy1
    · have hxy : ((k, x) : α × β) = (k, y) := by rw [hx1, hy1]
      exact congrArg Prod.snd hxy
    · exact absurd (List.mem_map.mpr ⟨(k, y), hy1, by rw [← hx1]⟩) hnd.1
    · exact absurd (List.mem_map.mpr ⟨(k, x), hx1, by rw [← hy1]⟩) hnd.1
    · exact ih hnd.2 hx1 hy1

/- Per-entry contributions of one pass, as pure functions; used to show
   that the fold over the pending map computes order-independent
   aggregates. -/

def entryRemoved (c : Chain) (h : Header) (fee : Nat) (e : Nat × Tx) : Bool :=
  match classifyEntry c h fee e with
  | .included => true
  | .superseded => true
  | _ => false

def entryIncludedBlobs (c : Chain) (h : Header) (fee : Nat) (e : Nat × Tx) : Nat :=
  match classifyEntry c h fee e with
  | .included => e.2.blobHashes.length
  | _ => 0

def entryViable (c : Chain) (h : Header) (fee : Nat) (e : Nat × Tx) : Bool :=
  classifyEntry c h fee e = .viable

def entryViableBlobs (c : Chain) (h : Header) (fee : Nat) (e : Nat × Tx) : Nat :=
  match classifyEntry c h fee e with
  | .viable => e.2.blobHashes.length
  | _ => 0

theorem pass_blobsIncluded (c : Chain) (h : Header) (fee : Nat) (times : List (Nat × Nat))
    (now : Nat) (l : List (Nat × Tx)) :
    ∀ acc : PassResult,
      (List.foldl (passStep c h fee times now) acc l).blobsIncluded =
        acc.blobsIncluded + (l.map (entryIncludedBlobs c h fee)).sum := by
  induction l with
  | nil => simp
  | cons e l ih =>
    intro acc
    rw [List.foldl_cons, ih]
    cases hc : classifyEntry c h fee e <;>
      simp [passStep, hc, entryIncludedBlobs] <;> omega

theorem pass_viableTxs (c : Chain) (h : Header) (fee : Nat) (times : List (Nat × Nat))
    (now : Nat) (l : List (Nat × Tx)) :
    ∀ acc : PassResult,
      (List.foldl (passStep c h fee times now) acc l).viableTxs =
        acc.viableTxs + l.countP (entryViable c h fee) := by
  induction l with
  | nil => simp
  | cons e l ih =>
    intro acc
    rw [List.foldl_cons, ih]
    cases hc : classifyEntry c h fee e <;>
      simp [passStep, hc, entryViable, List.countP_cons] <;> omega

theorem pass_viableBlobs (c : Chain) (h : Header) (fee : Nat) (times : List (Nat × Nat))
    (now : Nat) (l : List (Nat × Tx)) :
    ∀ acc : PassResult,
      (List.foldl (passStep c h fee times now) acc l).viableBlobs =
        acc.viableBlobs + (l.map (entryViableBlobs c h fee)).sum := by
  induction l with
  | nil => simp
  | cons e l ih =>
    intro acc
    rw [List.foldl_cons, ih]
    cases hc : classifyEntry c h fee e <;>
      simp [passStep, hc, entryViableBlobs] <;> omega

theorem pass_removed (c : Chain) (h : Header) (fee : Nat) (times : List (Nat × Nat))
    (now : Nat) (l : List (Nat × Tx)) :
    ∀ acc : PassResult,
      (List.foldl (passStep c h fee times now) acc l).removed =
        acc.removed ++ (l.filter (entryRemoved c h fee)).map Prod.fst := by
  induction l with
  | nil => simp
  | cons e l ih =>
    intro acc
    rw [List.foldl_cons, ih]
    cases hc : classifyEntry c h fee e <;>
      simp [passStep, hc, entryRemoved, List.filter_cons]

theorem processPass_removed (c : Chain) (h : Header) (fee : Nat) (times : List (Nat × Nat))
    (now : Nat) (incl : List TxInclusionData) (l : List (Nat × Tx)) :
    (processPass c h fee times now incl l).removed =
      (l.filter (entryRemoved c h fee)).map Prod.fst := by
  rw [processPass, pass_removed]
  simp

example : fakeExponential 1 0 5 = 1 := by
  rw [show fakeExponential 1 0 5 = fakeExpGo 0 5 1 (1 * 5) 0 / 5 from rfl]
  rw [show (1 * 5 : Nat) = 5 from by norm_num]
  rw [fakeExpGo_step 0 5 1 5 0 (by norm_num) (by norm_num) (by norm_num)]
  rw [show (5 * 0 / 5 / 1 : Nat) = 0 from by norm_num]
  rw [fakeExpGo_zero]

/- Projections of stepHead, for use in proofs. -/

theorem stepHead_currBaseFee (s : S) (h : Header) (c : Chain) (now : Nat) :
    (stepHead s h c now).currBaseFee = baseFeeAfter s h := rfl

theorem stepHead_pendingTxs (s : S) (h : Header) (c : Chain) (now : Nat) :
    (stepHead s h c now).pendingTxs =
      s.pendingTxs.filter (fun p => p.1 ∉ (headPass s h c now).removed) := rfl

theorem stepHead_txTime (s : S) (h : Header) (c : Chain) (now : Nat) :
    (stepHead s h c now).txTime =
      s.txTime.filter (fun p => p.1 ∉ (headPass s h c now).removed) := rfl

theorem stepHead_txDataList (s : S) (h : Header) (c : Chain) (now : Nat) :
    (stepHead s h c now).txDataList = s.txDataList := rfl

theorem stepHead_blockDataList (s : S) (h : Header) (c : Chain) (now : Nat) :
    (stepHead s h c now).blockDataList =
      s.blockDataList ++
        [{ blockHash := h.hash, blockNumber := h.number % U64, blockTime := h.time
           blobBaseFeeWei := baseFeeAfter s h % U64, baseFeeGwei := gweiQ h.baseFee
           builder := h.extra }] := rfl

theorem stepHead_txMetricsList (s : S) (h : Header) (c : Chain) (now : Nat) :
    (stepHead s h c now).txMetricsList = s.txMetricsList := rfl

theorem stepHead_txInclusionList (s : S) (h : Header) (c : Chain) (now : Nat) :
    (stepHead s h c now).txInclusionList = (headPass s h c now).inclusionList := rfl

theorem stepHead_terminal (s : S) (h : Header) (c : Chain) (now : Nat) :
    (stepHead s h c now).terminal = s.terminal ++ (headPass s h c now).removed := rfl

theorem headPass_removed (s : S) (h : Header) (c : Chain) (now : Nat) :
    (headPass s h c now).removed =
      (s.pendingTxs.filter (entryRemoved c h (baseFeeAfter s h))).map Prod.fst := by
  rw [headPass, processPass_removed]

/- Concrete fixtures for witnesses and counterexamples.  txA is the
   example of spec section 8: nonce 5, blob-fee cap 10, two blobs,
   sender X = 10. -/

def txA : Tx :=
  { typ := 3, hash := 1, nonce := 5, blobHashes := [7, 8], blobGasFeeCap := 10
    gasFeeCap := 4, gasTipCap := 2, blobGas := 131072, gas := 21000
    sender := some 10 }

def txB : Tx :=
  { typ := 3, hash := 2, nonce := 0, blobHashes := [9], blobGasFeeCap := 3
    gasFeeCap := 1, gasTipCap := 1, blobGas := 131072, gas := 21000
    sender := some 11 }

def txNoSender : Tx :=
  { typ := 3, hash := 4, nonce := 0, blobHashes := [5], blobGasFeeCap := 6
    gasFeeCap := 1, gasTipCap := 1, blobGas := 131072, gas := 21000
    sender := none }

def txLegacy : Tx :=
  { typ := 2, hash := 6, nonce := 0, blobHashes := [], blobGasFeeCap := 0
    gasFeeCap := 1, gasTipCap := 1, blobGas := 0, gas := 21000
    sender := some 12 }

def head0 : Header :=
  { hash := 100, number := 1, time := 50, baseFee := 7, excessBlobGas := none
    extra := "b" }

/- A head whose block contains txA's receipt. -/
def cInc : Chain :=
  { receiptOf := fun k => if k = 1 then some { blockHash := 100, blockNumber := 1 } else none
    nonceAt := fun _ => none }

/- No receipts; sender 10's on-chain nonce is 6 (txA's nonce 5 exceeded). -/
def cSup : Chain :=
  { receiptOf := fun _ => none
    nonceAt := fun a => if a = 10 then some 6 else none }

/- txA's receipt is in this head AND sender 10's nonce is 6. -/
def cSupInc : Chain :=
  { receiptOf := fun k => if k = 1 then some { blockHash := 100, blockNumber := 1 } else none
    nonceAt := fun a => if a = 10 then some 6 else none }

def emptyPass : PassResult :=
  { blobsIncluded := 0, viableTxs := 0, viableBlobs := 0, removed := [], inclusionList := [] }

example : (stepTx initS txA 0).pendingTxs.map Prod.fst = [1] := by decide

example : (stepHead (stepTx initS txA 0) head0 cInc 20).pendingTxs = [] := by decide

example : (stepHead (stepTx initS txA 0) head0 cInc 20).txInclusionList.length = 1 := by
  decide

example : (stepHead (stepTx initS txA 0) head0 cInc 20).blockDataList =
    (stepHead initS head0 cInc 20).blockDataList := rfl

/- Claim theorems. -/

/-- C6: a transaction delivered on the pending stream is inserted into
PendingSet iff its type is the blob transaction type (the only type that
carries blob-data commitments); any other type leaves the entire state —
PendingSet, admission times and all four persisted collections —
unchanged. -/
theorem admission_filter_blob_only (s : S) (tx : Tx) (now : Nat) :
    (tx.hash ∈ (stepTx s tx now).pendingTxs.map Prod.fst ↔
      (tx.typ = BlobTxType ∨ tx.hash ∈ s.pendingTxs.map Prod.fst))
    ∧ (tx.typ ≠ BlobTxType → stepTx s tx now = s) := by
  constructor
  · by_cases hb : tx.typ = BlobTxType
    · simp only [stepTx, if_pos hb, keys_insertA]
      by_cases hk : tx.hash ∈ s.pendingTxs.map Prod.fst <;> simp [hk, hb]
    · simp [stepTx, hb]
  · intro hb
    simp [stepTx, hb]

/-- Witness for C6 at the concrete legacy (type-2) transaction. -/
theorem admission_filter_blob_only_witness :
    (txLegacy.hash ∈ (stepTx initS txLegacy 3).pendingTxs.map Prod.fst ↔
      (txLegacy.typ = BlobTxType ∨ txLegacy.hash ∈ initS.pendingTxs.map Prod.fst))
    ∧ (txLegacy.typ ≠ BlobTxType → stepTx initS txLegacy 3 = initS) :=
  admission_filter_blob_only initS txLegacy 3

/-- C10: when sender recovery fails for an admitted blob transaction, the
admission path still appends a record to TxData — the Go zero value — while
TxMetricsData receives nothing. -/
theorem sender_failure_txdata_zero (s : S) (tx : Tx) (now : Nat)
    (hb : tx.typ = BlobTxType) (hs : tx.sender = none) :
    txData tx = TxData.zero
    ∧ (stepTx s tx now).txDataList = s.txDataList ++ [TxData.zero]
    ∧ (stepTx s tx now).txMetricsList = s.txMetricsList := by
  refine ⟨?_, ?_, ?_⟩ <;> simp [stepTx, hb, txData, hs, recordTxMetrics]

/-- Witness for C10 at the concrete blob transaction with failing sender
recovery. -/
theorem sender_failure_txdata_zero_witness :
    txData txNoSender = TxData.zero
    ∧ (stepTx initS txNoSender 2).txDataList = initS.txDataList ++ [TxData.zero]
    ∧ (stepTx initS txNoSender 2).txMetricsList = initS.txMetricsList :=
  sender_failure_txdata_zero initS txNoSender 2 rfl rfl

/- stepTx never changes the tracked base fee. -/
theorem stepTx_currBaseFee (s : S) (tx : Tx) (now : Nat) :
    (stepTx s tx now).currBaseFee = s.currBaseFee := by
  by_cases hb : tx.typ = BlobTxType <;> simp [stepTx, hb]

/- Over any run whose head events all lack the excess-blob-gas field, the
tracked base fee never moves. -/
theorem run_currBaseFee_const (evs : List Event) :
    ∀ s : S, (∀ h c n, Event.headEv h c n ∈ evs → h.excessBlobGas = none) →
      (run s evs).currBaseFee = s.currBaseFee := by
  induction evs with
  | nil => intro s _; rfl
  | cons e evs ih =>
    intro s hn
    have hstep : run s (e :: evs) = run (step s e) evs := rfl
    rw [hstep, ih (step s e) (fun h c n hm => hn h c n (List.mem_cons_of_mem _ hm))]
    cases e with
    | txEv tx now => exact stepTx_currBaseFee s tx now
    | headEv h c now =>
      have hx := hn h c now (List.mem_cons_self _ _)
      have hsh : step s (Event.headEv h c now) = stepHead s h c now := rfl
      rw [hsh, stepHead_currBaseFee, baseFeeAfter, hx]

/-- C7: the blob base fee read by the viability check starts at zero and
stays zero while no head carries excess-blob-gas; a head carrying the field
sets it to the protocol exponential formula (eip4844.CalcBlobFee) of that
head's excess-blob-gas; a head lacking the field leaves it unchanged. -/
theorem base_fee_tracker_spec (td : List TxData) (bd : List BlockData)
    (tm : List TxMetricsData) (ti : List TxInclusionData) (evs : List Event)
    (s : S) (h : Header) (c : Chain) (now e : Nat)
    (hnone : ∀ h' c' n', Event.headEv h' c' n' ∈ evs → h'.excessBlobGas = none) :
    (run (startState td bd tm ti) evs).currBaseFee = 0
    ∧ (h.excessBlobGas = some e → (stepHead s h c now).currBaseFee = calcBlobFee e)
    ∧ (h.excessBlobGas = none → (stepHead s h c now).currBaseFee = s.currBaseFee) := by
  refine ⟨?_, ?_, ?_⟩
  · rw [run_currBaseFee_const evs _ hnone]
    rfl
  · intro hx
    rw [stepHead_currBaseFee, baseFeeAfter, hx]
  · intro hx
    rw [stepHead_currBaseFee, baseFeeAfter, hx]

/- A one-head event list whose head carries excess-blob-gas 0, for the C7
witness. -/
def headX : Header :=
  { hash := 101, number := 2, time := 60, baseFee := 7, excessBlobGas := some 0
    extra := "b" }

/-- Witness for C7: empty run keeps fee 0; headX (excess 0) sets it to
calcBlobFee 0; head0 (no field) leaves it alone. -/
theorem base_fee_tracker_spec_witness :
    (run (startState [] [] [] []) []).currBaseFee = 0
    ∧ (headX.excessBlobGas = some 0 →
        (stepHead initS headX cInc 9).currBaseFee = calcBlobFee 0)
    ∧ (headX.excessBlobGas = none →
        (stepHead initS headX cInc 9).currBaseFee = initS.currBaseFee) :=
  base_fee_tracker_spec [] [] [] [] [] initS headX cInc 9 0
    (fun h' c' n' hm => absurd hm (List.not_mem_nil _))

/-- C1 (amended): re-delivering an already-pending blob transaction leaves
the set of pending hashes unchanged, but it overwrites the stored entry,
resets the admission timestamp to the re-delivery time, and appends
duplicate records to the TxData and TxMetricsData collections; the
BlockData and TxInclusionData collections are unchanged. -/
theorem duplicate_admission_effects (s : S) (tx : Tx) (now : Nat)
    (hb : tx.typ = BlobTxType) (hmem : tx.hash ∈ s.pendingTxs.map Prod.fst) :
    (stepTx s tx now).pendingTxs.map Prod.fst = s.pendingTxs.map Prod.fst
    ∧ lookupA (stepTx s tx now).pendingTxs tx.hash = some tx
    ∧ lookupA (stepTx s tx now).txTime tx.hash = some now
    ∧ (stepTx s tx now).txDataList = s.txDataList ++ [txData tx]
    ∧ (stepTx s tx now).txMetricsList = recordTxMetrics s.txMetricsList tx now
    ∧ (stepTx s tx now).blockDataList = s.blockDataList
    ∧ (stepTx s tx now).txInclusionList = s.txInclusionList := by
  refine ⟨?_, ?_, ?_, ?_, ?_, ?_, ?_⟩ <;>
    simp [stepTx, hb, keys_insertA, hmem, lookupA_insertA_self]

/-- Witness for C1's amended theorem: txA delivered at tick 0 and again at
tick 5. -/
theorem duplicate_admission_effects_witness :
    (stepTx (stepTx initS txA 0) txA 5).pendingTxs.map Prod.fst =
      (stepTx initS txA 0).pendingTxs.map Prod.fst
    ∧ lookupA (stepTx (stepTx initS txA 0) txA 5).pendingTxs txA.hash = some txA
    ∧ lookupA (stepTx (stepTx initS txA 0) txA 5).txTime txA.hash = some 5
    ∧ (stepTx (stepTx initS txA 0) txA 5).txDataList =
        (stepTx initS txA 0).txDataList ++ [txData txA]
    ∧ (stepTx (stepTx initS txA 0) txA 5).txMetricsList =
        recordTxMetrics (stepTx initS txA 0).txMetricsList txA 5
    ∧ (stepTx (stepTx initS txA 0) txA 5).blockDataList =
        (stepTx initS txA 0).blockDataList
    ∧ (stepTx (stepTx initS txA 0) txA 5).txInclusionList =
        (stepTx initS txA 0).txInclusionList :=
  duplicate_admission_effects (stepTx initS txA 0) txA 5 rfl (by decide)

/-- C1 counterexample: duplicate admission is NOT a silent no-op.  After
re-delivering txA at tick 5, the admission timestamp has moved from 0 to 5
and the TxData and TxMetricsData collections have each grown by one
record, contradicting the claim that the timestamp and all four record
collections are unchanged. -/
theorem duplicate_admission_claim_false :
    lookupA (stepTx (stepTx initS txA 0) txA 5).txTime txA.hash = some 5
    ∧ lookupA (stepTx initS txA 0).txTime txA.hash = some 0
    ∧ (stepTx (stepTx initS txA 0) txA 5).txDataList.length = 2
    ∧ (stepTx initS txA 0).txDataList.length = 1
    ∧ (stepTx (stepTx initS txA 0) txA 5).txMetricsList.length = 2
    ∧ (stepTx initS txA 0).txMetricsList.length = 1 := by
  refine ⟨by decide, by decide, by decide, by decide, by decide, by decide⟩

/-- C2 (amended): every new-head event appends exactly one BlockData
record, whose fields are the head's block hash, its block number truncated
to 64 bits (h.Number.Uint64()), its time, the post-update blob base fee
(truncated to 64 bits), the base fee in Gwei and the builder string;
transaction events never append a BlockData record.  The six per-pass
aggregates are computed and logged but are not part of the persisted
record. -/
theorem blockdata_appended_per_head (s : S) (h : Header) (c : Chain) (now : Nat)
    (tx : Tx) (tnow : Nat) :
    (stepHead s h c now).blockDataList =
      s.blockDataList ++
        [{ blockHash := h.hash, blockNumber := h.number % U64, blockTime := h.time
           blobBaseFeeWei := baseFeeAfter s h % U64, baseFeeGwei := gweiQ h.baseFee
           builder := h.extra }]
    ∧ (stepTx s tx tnow).blockDataList = s.blockDataList := by
  constructor
  · rfl
  · by_cases hb : tx.typ = BlobTxType <;> simp [stepTx, hb]

/-- Witness for C2's amended theorem at head0 / txA. -/
theorem blockdata_appended_per_head_witness :
    (stepHead initS head0 cInc 20).blockDataList =
      initS.blockDataList ++
        [{ blockHash := head0.hash, blockNumber := head0.number % U64
           blockTime := head0.time
           blobBaseFeeWei := baseFeeAfter initS head0 % U64
           baseFeeGwei := gweiQ head0.baseFee, builder := head0.extra }]
    ∧ (stepTx initS txA 0).blockDataList = initS.blockDataList :=
  blockdata_appended_per_head initS head0 cInc 20 txA 0

/-- C2 counterexample: the appended BlockData record does not contain the
per-pass aggregates.  Starting from two states that differ in their
pending sets — one empty, one holding txA whose receipt is in this head —
the reconciliation pass produces different included-blob counts, different
removed-entry counts and different resulting pending-set sizes, yet the
appended BlockData records (indeed the whole BlockData collections) are
identical, so no aggregate can be read off the record. -/
theorem blockdata_lacks_aggregates :
    (stepHead (stepTx initS txA 0) head0 cInc 20).blockDataList =
      (stepHead initS head0 cInc 20).blockDataList
    ∧ (headPass (stepTx initS txA 0) head0 cInc 20).blobsIncluded = 2
    ∧ (headPass initS head0 cInc 20).blobsIncluded = 0
    ∧ (headPass (stepTx initS txA 0) head0 cInc 20).removed.length = 1
    ∧ (headPass initS head0 cInc 20).removed.length = 0
    ∧ (stepHead (stepTx initS txA 0) head0 cInc 20).pendingTxs.length = 0
    ∧ (stepTx initS txA 0).pendingTxs.length = 1 :=
  ⟨rfl, by decide, by decide, by decide, by decide, by decide, by decide⟩

/- The spec's mutual-exclusion invariant: no hash is simultaneously a
pending-set member and terminally classified. -/
def MutualExclusion (s : S) : Prop :=
  ∀ k, k ∈ s.pendingTxs.map Prod.fst → k ∉ s.terminal

/-- C3 (amended): the mutual-exclusion invariant is preserved by every
event step, provided a transaction already terminally classified is not
re-delivered on the pending stream.  (The unamended claim fails because
admission never consults the terminal history; see the counterexample.) -/
theorem mutual_exclusion_preserved (s : S) (e : Event) (hI : MutualExclusion s)
    (hfresh : ∀ tx now, e = Event.txEv tx now → tx.hash ∉ s.terminal) :
    MutualExclusion (step s e) := by
  cases e with
  | txEv tx now =>
    intro k hk hter
    by_cases hb : tx.typ = BlobTxType
    · have hk' : k ∈ (insertA s.pendingTxs tx.hash tx).map Prod.fst := by
        simpa [step, stepTx, hb] using hk
      have hter' : k ∈ s.terminal := by simpa [step, stepTx, hb] using hter
      rw [keys_insertA] at hk'
      by_cases hmem : tx.hash ∈ s.pendingTxs.map Prod.fst
      · rw [if_pos hmem] at hk'
        exact hI k hk' hter'
      · rw [if_neg hmem] at hk'
        rcases List.mem_append.mp hk' with h1 | h2
        · exact hI k h1 hter'
        · have hkx : k = tx.hash := by simpa using h2
          exact hfresh tx now rfl (hkx ▸ hter')
    · have hk' : k ∈ s.pendingTxs.map Prod.fst := by
        simpa [step, stepTx, hb] using hk
      have hter' : k ∈ s.terminal := by simpa [step, stepTx, hb] using hter
      exact hI k hk' hter'
  | headEv h c now =>
    intro k hk hter
    have hsh : step s (Event.headEv h c now) = stepHead s h c now := rfl
    rw [hsh, stepHead_pendingTxs] at hk
    rw [hsh, stepHead_terminal] at hter
    obtain ⟨p, hpf, hpk⟩ := List.mem_map.mp hk
    obtain ⟨hpl, hpd⟩ := List.mem_filter.mp hpf
    have hnr : p.1 ∉ (headPass s h c now).removed := of_decide_eq_true hpd
    rcases List.mem_append.mp hter with h1 | h2
    · exact hI k (List.mem_map.mpr ⟨p, hpl, hpk⟩) h1
    · exact hnr (hpk ▸ h2)

/-- Witness for C3's amended theorem: the invariant holds after admitting
txA to the initial state. -/
theorem mutual_exclusion_preserved_witness :
    MutualExclusion (step initS (Event.txEv txA 0)) :=
  mutual_exclusion_preserved initS (Event.txEv txA 0)
    (fun k hk => by simp [initS, startState] at hk)
    (fun tx now heq => by simp [initS, startState])

/-- C3 counterexample: the invariant as claimed fails on the code.  Run:
admit txA, then a head whose block contains txA's receipt (txA classified
included, one terminal record appended), then the stream re-delivers txA.
Afterwards txA's hash is a pending-set member AND terminally classified
(its inclusion record persists), so the hash is in both places at a point
between event-processing steps. -/
theorem mutual_exclusion_claim_false :
    txA.hash ∈
      (run initS [Event.txEv txA 0, Event.headEv head0 cInc 10,
        Event.txEv txA 20]).pendingTxs.map Prod.fst
    ∧ txA.hash ∈
        (run initS [Event.txEv txA 0, Event.headEv head0 cInc 10,
          Event.txEv txA 20]).terminal
    ∧ (run initS [Event.txEv txA 0, Event.headEv head0 cInc 10,
        Event.txEv txA 20]).txInclusionList.length = 1 := by
  refine ⟨by decide, by decide, by decide⟩

/- Membership characterisation of the removed set of one pass. -/
theorem mem_headPass_removed (s : S) (h : Header) (c : Chain) (now : Nat) (k : Nat) :
    k ∈ (headPass s h c now).removed ↔
      ∃ p ∈ s.pendingTxs, entryRemoved c h (baseFeeAfter s h) p = true ∧ p.1 = k := by
  rw [headPass_removed]
  constructor
  · intro hk
    obtain ⟨p, hpf, hpk⟩ := List.mem_map.mp hk
    obtain ⟨hpl, hpr⟩ := List.mem_filter.mp hpf
    exact ⟨p, hpl, hpr, hpk⟩
  · rintro ⟨p, hpl, hpr, hpk⟩
    exact List.mem_map.mpr ⟨p, List.mem_filter.mpr ⟨hpl, hpr⟩, hpk⟩

/-- C4 (amended): if a pending transaction's sender nonce at the new head
exceeds the transaction's nonce and its receipt is not found in this exact
head (lookup failed, or receipt in another block), the pass classifies it
superseded: the entry is removed from PendingSet and its loop iteration
only records the deletion — it appends no inclusion record and touches no
aggregate counter.  (The unamended claim — removal as superseded with no
inclusion record regardless of the receipt lookup's outcome — is refuted by
the counterexample, where a matching receipt wins over the exceeded
nonce.) -/
theorem superseded_precedence (s : S) (h : Header) (c : Chain) (now : Nat)
    (k : Nat) (tx : Tx) (a n : Nat) (acc : PassResult)
    (hs : tx.sender = some a) (hn : c.nonceAt a = some n) (hlt : tx.nonce < n)
    (hnr : includedAt c h k = false) :
    classifyEntry c h (baseFeeAfter s h) (k, tx) = Outcome.superseded
    ∧ ((k, tx) ∈ s.pendingTxs → k ∉ (stepHead s h c now).pendingTxs.map Prod.fst)
    ∧ passStep c h (baseFeeAfter s h) s.txTime now acc (k, tx) =
        { acc with removed := acc.removed ++ [k] } := by
  have hcl : classifyEntry c h (baseFeeAfter s h) (k, tx) = Outcome.superseded := by
    simp [classifyEntry, hnr, hs, hn, hlt]
  refine ⟨hcl, ?_, ?_⟩
  · intro hmem hk
    rw [stepHead_pendingTxs] at hk
    obtain ⟨p, hpf, hpk⟩ := List.mem_map.mp hk
    obtain ⟨hpl, hpd⟩ := List.mem_filter.mp hpf
    have hnrem : p.1 ∉ (headPass s h c now).removed := of_decide_eq_true hpd
    apply hnrem
    rw [hpk, mem_headPass_removed]
    exact ⟨(k, tx), hmem, by simp [entryRemoved, hcl], rfl⟩
  · simp [passStep, hcl]

/-- Witness for C4's amended theorem: txA pending, no receipts, sender
10's nonce is 6 > txA's nonce 5; the entry is removed and its iteration
only records the deletion. -/
theorem superseded_precedence_witness :
    classifyEntry cSup head0 (baseFeeAfter (stepTx initS txA 0) head0) (1, txA) =
      Outcome.superseded
    ∧ ((1, txA) ∈ (stepTx initS txA 0).pendingTxs →
        (1 : Nat) ∉ (stepHead (stepTx initS txA 0) head0 cSup 20).pendingTxs.map Prod.fst)
    ∧ passStep cSup head0 (baseFeeAfter (stepTx initS txA 0) head0)
        (stepTx initS txA 0).txTime 20 emptyPass (1, txA) =
        { emptyPass with removed := emptyPass.removed ++ [1] } :=
  superseded_precedence (stepTx initS txA 0) head0 cSup 20 1 txA 10 6 emptyPass
    rfl (by decide) (by decide) (by decide)

/-- C4 counterexample: the claim as stated is false.  With sender 10's
nonce 6 exceeding txA's nonce 5 AND txA's receipt found in this exact head
(a successful receipt lookup), the code classifies txA included, not
superseded: an inclusion record IS appended, contradicting the claimed
"appends no inclusion record for it ... regardless of whether the receipt
lookup for it succeeded". -/
theorem superseded_precedence_claim_false :
    txA.nonce < 6
    ∧ cSupInc.nonceAt 10 = some 6
    ∧ classifyEntry cSupInc head0 0 (1, txA) = Outcome.included
    ∧ (stepHead (stepTx initS txA 0) head0 cSupInc 20).txInclusionList.length = 1
    ∧ (stepTx initS txA 0).txInclusionList.length = 0 := by
  refine ⟨by decide, by decide, by decide, by decide, by decide⟩

/-- C8 (amended): when a pending transaction's receipt is not found in the
current head AND its sender recovery or its nonce lookup fails, the loop
iteration is a no-op for it: it stays in PendingSet and is classified
neither included nor superseded in that pass.  (The unamended claim also
listed a receipt-lookup failure alone as sufficient to stay pending; the
counterexample refutes that: with the receipt lookup failing but the nonce
already exceeded, the transaction is removed as superseded.) -/
theorem transient_failure_leaves_pending (s : S) (h : Header) (c : Chain) (now : Nat)
    (k : Nat) (tx : Tx) (acc : PassResult)
    (hnr : includedAt c h k = false)
    (herr : tx.sender = none ∨ ∃ a, tx.sender = some a ∧ c.nonceAt a = none)
    (hnd : (s.pendingTxs.map Prod.fst).Nodup)
    (hmem : (k, tx) ∈ s.pendingTxs) :
    classifyEntry c h (baseFeeAfter s h) (k, tx) = Outcome.pendingErr
    ∧ (k, tx) ∈ (stepHead s h c now).pendingTxs
    ∧ passStep c h (baseFeeAfter s h) s.txTime now acc (k, tx) = acc := by
  have hcl : classifyEntry c h (baseFeeAfter s h) (k, tx) = Outcome.pendingErr := by
    rcases herr with hs | ⟨a, hs, hna⟩
    · simp [classifyEntry, hnr, hs]
    · simp [classifyEntry, hnr, hs, hna]
  have hknr : k ∉ (headPass s h c now).removed := by
    intro hk
    obtain ⟨p, hpl, hpr, hpk⟩ := (mem_headPass_removed s h c now k).mp hk
    have hp2 : p.2 = tx := by
      have hpe : ((k, p.2) : Nat × Tx) ∈ s.pendingTxs := by
        have : p = (k, p.2) := by
          rw [← hpk]
        rw [← this]
        exact hpl
      exact nodup_keys_unique hnd hpe hmem
    rw [show p = (k, tx) from by rw [← hpk, ← hp2]] at hpr
    rw [entryRemoved, hcl] at hpr
    cases hpr
  refine ⟨hcl, ?_, ?_⟩
  · rw [stepHead_pendingTxs]
    exact List.mem_filter.mpr ⟨hmem, decide_eq_true hknr⟩
  · simp [passStep, hcl]

/- txA's sender recovers, but the nonce lookup for account 10 fails; no
receipts at all. -/
def cErr : Chain :=
  { receiptOf := fun _ => none
    nonceAt := fun _ => none }

/-- Witness for C8's amended theorem: receipt lookup fails and the nonce
lookup fails; txA stays pending and its iteration changes nothing. -/
theorem transient_failure_leaves_pending_witness :
    classifyEntry cErr head0 (baseFeeAfter (stepTx initS txA 0) head0) (1, txA) =
      Outcome.pendingErr
    ∧ (1, txA) ∈ (stepHead (stepTx initS txA 0) head0 cErr 20).pendingTxs
    ∧ passStep cErr head0 (baseFeeAfter (stepTx initS txA 0) head0)
        (stepTx initS txA 0).txTime 20 emptyPass (1, txA) = emptyPass :=
  transient_failure_leaves_pending (stepTx initS txA 0) head0 cErr 20 1 txA emptyPass
    (by decide) (Or.inr ⟨10, rfl, rfl⟩) (by decide) (by decide)

/-- C8 counterexample: the claim as stated is false.  The receipt lookup
for txA fails (no receipt exists), yet txA does not remain in PendingSet:
its sender's nonce (6) already exceeds its own (5), so the pass removes it
as superseded. -/
theorem transient_failure_claim_false :
    cSup.receiptOf txA.hash = none
    ∧ txA.hash ∈ (stepTx initS txA 0).pendingTxs.map Prod.fst
    ∧ txA.hash ∉
        (stepHead (stepTx initS txA 0) head0 cSup 20).pendingTxs.map Prod.fst := by
  refine ⟨rfl, by decide, by decide⟩

/-- C5: for a fixed chain oracle, head, base fee, admission-time map and
starting inclusion list, evaluating the pending entries in any other order
(a permutation of the snapshot) yields the same included-blob count, the
same viable-transaction and viable-blob counts, the same number of removed
entries, and the same resulting pending set (hence the same resulting
pending-set size) for any snapshot l0 the removals are applied to. -/
theorem classification_order_independence (c : Chain) (h : Header) (fee : Nat)
    (times : List (Nat × Nat)) (now : Nat) (incl : List TxInclusionData)
    (l l' l0 : List (Nat × Tx)) (hp : l.Perm l') :
    (processPass c h fee times now incl l).blobsIncluded =
      (processPass c h fee times now incl l').blobsIncluded
    ∧ (processPass c h fee times now incl l).viableTxs =
        (processPass c h fee times now incl l').viableTxs
    ∧ (processPass c h fee times now incl l).viableBlobs =
        (processPass c h fee times now incl l').viableBlobs
    ∧ (processPass c h fee times now incl l).removed.length =
        (processPass c h fee times now incl l').removed.length
    ∧ l0.filter (fun p => p.1 ∉ (processPass c h fee times now incl l).removed) =
        l0.filter (fun p => p.1 ∉ (processPass c h fee times now incl l').removed) := by
  refine ⟨?_, ?_, ?_, ?_, ?_⟩
  · rw [processPass, processPass, pass_blobsIncluded, pass_blobsIncluded]
    exact congrArg _ ((hp.map (entryIncludedBlobs c h fee)).sum_eq)
  · rw [processPass, processPass, pass_viableTxs, pass_viableTxs]
    exact congrArg _ (hp.countP_eq (entryViable c h fee))
  · rw [processPass, processPass, pass_viableBlobs, pass_viableBlobs]
    exact congrArg _ ((hp.map (entryViableBlobs c h fee)).sum_eq)
  · rw [processPass_removed, processPass_removed, List.length_map, List.length_map]
    exact (hp.filter (entryRemoved c h fee)).length_eq
  · apply List.filter_congr
    intro p _
    apply decide_eq_decide.mpr
    apply not_congr
    rw [processPass_removed, processPass_removed]
    exact ((hp.filter (entryRemoved c h fee)).map Prod.fst).mem_iff

/-- Witness for C5: the two-entry snapshot [(1, txA), (2, txB)] evaluated
in both orders under the cSup oracle. -/
theorem classification_order_independence_witness :
    (processPass cSup head0 0 [(1, 0), (2, 0)] 20 [] [(1, txA), (2, txB)]).blobsIncluded =
      (processPass cSup head0 0 [(1, 0), (2, 0)] 20 [] [(2, txB), (1, txA)]).blobsIncluded
    ∧ (processPass cSup head0 0 [(1, 0), (2, 0)] 20 [] [(1, txA), (2, txB)]).viableTxs =
        (processPass cSup head0 0 [(1, 0), (2, 0)] 20 [] [(2, txB), (1, txA)]).viableTxs
    ∧ (processPass cSup head0 0 [(1, 0), (2, 0)] 20 [] [(1, txA), (2, txB)]).viableBlobs =
        (processPass cSup head0 0 [(1, 0), (2, 0)] 20 [] [(2, txB), (1, txA)]).viableBlobs
    ∧ (processPass cSup head0 0 [(1, 0), (2, 0)] 20 [] [(1, txA), (2, txB)]).removed.length =
        (processPass cSup head0 0 [(1, 0), (2, 0)] 20 [] [(2, txB), (1, txA)]).removed.length
    ∧ ([(1, txA), (2, txB)]).filter
         (fun p => p.1 ∉ (processPass cSup head0 0 [(1, 0), (2, 0)] 20 [] [(1, txA), (2, txB)]).removed) =
        ([(1, txA), (2, txB)]).filter
         (fun p => p.1 ∉ (processPass cSup head0 0 [(1, 0), (2, 0)] 20 [] [(2, txB), (1, txA)]).removed) :=
  classification_order_independence cSup head0 0 [(1, 0), (2, 0)] 20 []
    [(1, txA), (2, txB)] [(2, txB), (1, txA)] [(1, txA), (2, txB)]
    (List.Perm.swap (2, txB) (1, txA) [])

/- Persistence model for saveDataToFile / loadDataFromFile (lines
   289-322).  The byte-level mechanics of encoding/json are external to
   the repository; the persisted JSON document is modelled as a JSON
   value: each collection is one array of objects whose field names are
   the Go struct field names.  Hash, address and abstract-time fields
   appear as their numeric stand-ins. -/

inductive Json where
  | null
  | num (q : ℚ)
  | str (s : String)
  | arr (xs : List Json)
  | obj (fields : List (String × Json))

def jNat (n : Nat) : Json := .num (n : ℚ)

def Json.asNat : Json → Option Nat
  | .num q => if q.den = 1 ∧ 0 ≤ q.num then some q.num.toNat else none
  | _ => none

def Json.asRat : Json → Option ℚ
  | .num q => some q
  | _ => none

def Json.asStr : Json → Option String
  | .str s => some s
  | _ => none

def getField : List (String × Json) → String → Option Json
  | [], _ => none
  | (k, v) :: fs, key => if k = key then some v else getField fs key

theorem asNat_jNat (n : Nat) : (jNat n).asNat = some n := by
  simp [jNat, Json.asNat]

def encodeTxData (d : TxData) : Json :=
  .obj [("TxHash", jNat d.txHash),
        ("BlobGasFeeCapGwei", .num d.blobGasFeeCapGwei),
        ("BlobGas", jNat d.blobGas),
        ("BlobCount", jNat d.blobCount),
        ("GasFeeCapGwei", .num d.gasFeeCapGwei),
        ("GasTipCapGwei", .num d.gasTipCapGwei),
        ("Gas", jNat d.gas),
        ("Account", jNat d.account)]

def decodeTxData : Json → Option TxData
  | .obj fs => do
    let h ← (getField fs "TxHash").bind Json.asNat
    let bfc ← (getField fs "BlobGasFeeCapGwei").bind Json.asRat
    let bg ← (getField fs "BlobGas").bind Json.asNat
    let bc ← (getField fs "BlobCount").bind Json.asNat
    let gfc ← (getField fs "GasFeeCapGwei").bind Json.asRat
    let gtc ← (getField fs "GasTipCapGwei").bind Json.asRat
    let g ← (getField fs "Gas").bind Json.asNat
    let acc ← (getField fs "Account").bind Json.asNat
    pure { txHash := h, blobGasFeeCapGwei := bfc, blobGas := bg, blobCount := bc
           gasFeeCapGwei := gfc, gasTipCapGwei := gtc, gas := g, account := acc }
  | _ => none

def encodeBlockData (d : BlockData) : Json :=
  .obj [("BlockHash", jNat d.blockHash),
        ("BlockNumber", jNat d.blockNumber),
        ("BlockTime", jNat d.blockTime),
        ("BlobBaseFeeWei", jNat d.blobBaseFeeWei),
        ("BaseFeeGwei", .num d.baseFeeGwei),
        ("Builder", .str d.builder)]

def decodeBlockData : Json → Option BlockData
  | .obj fs => do
    let h ← (getField fs "BlockHash").bind Json.asNat
    let n ← (getField fs "BlockNumber").bind Json.asNat
    let t ← (getField fs "BlockTime").bind Json.asNat
    let bf ← (getField fs "BlobBaseFeeWei").bind Json.asNat
    let bfg ← (getField fs "BaseFeeGwei").bind Json.asRat
    let b ← (getField fs "Builder").bind Json.asStr
    pure { blockHash := h, blockNumber := n, blockTime := t, blobBaseFeeWei := bf
           baseFeeGwei := bfg, builder := b }
  | _ => none

def encodeTxMetricsData (d : TxMetricsData) : Json :=
  .obj [("Account", jNat d.account),
        ("BlobCount", jNat d.blobCount),
        ("BlobGasFeeCap", jNat d.blobGasFeeCap),
        ("TxTime", jNat d.txTime)]

def decodeTxMetricsData : Json → Option TxMetricsData
  | .obj fs => do
    let acc ← (getField fs "Account").bind Json.asNat
    let bc ← (getField fs "BlobCount").bind Json.asNat
    let bf ← (getField fs "BlobGasFeeCap").bind Json.asNat
    let t ← (getField fs "TxTime").bind Json.asNat
    pure { account := acc, blobCount := bc, blobGasFeeCap := bf, txTime := t }
  | _ => none

def encodeTxInclusionData (d : TxInclusionData) : Json :=
  .obj [("Account", jNat d.account),
        ("BlobCount", jNat d.blobCount),
        ("InclusionDelay", .num d.inclusionDelay),
        ("GasTipGwei", .num d.gasTipGwei)]

def decodeTxInclusionData : Json → Option TxInclusionData
  | .obj fs => do
    let acc ← (getField fs "Account").bind Json.asNat
    let bc ← (getField fs "BlobCount").bind Json.asNat
    let d1 ← (getField fs "InclusionDelay").bind Json.asRat
    let g ← (getField fs "GasTipGwei").bind Json.asRat
    pure { account := acc, blobCount := bc, inclusionDelay := d1, gasTipGwei := g }
  | _ => none

def encodeArr {α : Type} (enc : α → Json) (l : List α) : Json := .arr (l.map enc)

def decodeArr {α : Type} (dec : Json → Option α) : List Json → Option (List α)
  | [] => some []
  | j :: js => do
    let a ← dec j
    let as ← decodeArr dec js
    pure (a :: as)

def decodeList {α : Type} (dec : Json → Option α) : Json → Option (List α)
  | .arr xs => decodeArr dec xs
  | _ => none

theorem decode_encode_TxData (d : TxData) : decodeTxData (encodeTxData d) = some d := by
  simp [encodeTxData, decodeTxData, getField, asNat_jNat, Json.asRat]

theorem decode_encode_BlockData (d : BlockData) :
    decodeBlockData (encodeBlockData d) = some d := by
  simp [encodeBlockData, decodeBlockData, getField, asNat_jNat, Json.asRat, Json.asStr]

theorem decode_encode_TxMetricsData (d : TxMetricsData) :
    decodeTxMetricsData (encodeTxMetricsData d) = some d := by
  simp [encodeTxMetricsData, decodeTxMetricsData, getField, asNat_jNat]

theorem decode_encode_TxInclusionData (d : TxInclusionData) :
    decodeTxInclusionData (encodeTxInclusionData d) = some d := by
  simp [encodeTxInclusionData, decodeTxInclusionData, getField, asNat_jNat, Json.asRat]

theorem decodeArr_map {α : Type} (enc : α → Json) (dec : Json → Option α)
    (hrt : ∀ a, dec (enc a) = some a) (l : List α) :
    decodeArr dec (l.map enc) = some l := by
  induction l with
  | nil => rfl
  | cons a l ih => simp [decodeArr, hrt, ih]

theorem decodeList_encodeArr {α : Type} (enc : α → Json) (dec : Json → Option α)
    (hrt : ∀ a, dec (enc a) = some a) (l : List α) :
    decodeList dec (encodeArr enc l) = some l := by
  rw [encodeArr, decodeList]
  exact decodeArr_map enc dec hrt l

/- The data directory as filename → persisted JSON document.
   saveDataToFile truncates and rewrites the whole file (os.Create +
   Encode); loadDataFromFile returns the empty collection when the file
   does not exist (os.Stat err) and is fatal (none) when decoding fails. -/

def saveDataToFile (store : List (String × Json)) (filename : String) (doc : Json) :
    List (String × Json) :=
  insertA store filename doc

def loadDataFromFile {α : Type} (dec : Json → Option α) (store : List (String × Json))
    (filename : String) : Option (List α) :=
  match lookupA store filename with
  | none => some []
  | some j => decodeList dec j

def dataFolder : String := "data"
def txDataFile : String := "tx_data.json"
def blockDataFile : String := "block_data.json"
def txMetricsFile : String := "tx_metrics.json"
def txInclusionFile : String := "tx_inclusion.json"

/- filepath.Join dataFolder file. -/
def joinPath (dir file : String) : String := dir ++ "/" ++ file

/-- C9: persisting any in-memory sequence of records of any of the four
collections to its file and loading it back reproduces an equal sequence:
save followed by load is the identity, for every starting store state. -/
theorem save_load_roundtrip (store : List (String × Json))
    (tds : List TxData) (bds : List BlockData)
    (tms : List TxMetricsData) (tis : List TxInclusionData) :
    loadDataFromFile decodeTxData
        (saveDataToFile store (joinPath dataFolder txDataFile)
          (encodeArr encodeTxData tds))
        (joinPath dataFolder txDataFile) = some tds
    ∧ loadDataFromFile decodeBlockData
        (saveDataToFile store (joinPath dataFolder blockDataFile)
          (encodeArr encodeBlockData bds))
        (joinPath dataFolder blockDataFile) = some bds
    ∧ loadDataFromFile decodeTxMetricsData
        (saveDataToFile store (joinPath dataFolder txMetricsFile)
          (encodeArr encodeTxMetricsData tms))
        (joinPath dataFolder txMetricsFile) = some tms
    ∧ loadDataFromFile decodeTxInclusionData
        (saveDataToFile store (joinPath dataFolder txInclusionFile)
          (encodeArr encodeTxInclusionData tis))
        (joinPath dataFolder txInclusionFile) = some tis := by
  refine ⟨?_, ?_, ?_, ?_⟩ <;>
    rw [loadDataFromFile, saveDataToFile, lookupA_insertA_self]
  · exact decodeList_encodeArr _ _ decode_encode_TxData tds
  · exact decodeList_encodeArr _ _ decode_encode_BlockData bds
  · exact decodeList_encodeArr _ _ decode_encode_TxMetricsData tms
  · exact decodeList_encodeArr _ _ decode_encode_TxInclusionData tis

/-- Witness for C9 at one concrete record per collection in an empty
store. -/
theorem save_load_roundtrip_witness :
    loadDataFromFile decodeTxData
        (saveDataToFile [] (joinPath dataFolder txDataFile)
          (encodeArr encodeTxData [txData txA]))
        (joinPath dataFolder txDataFile) = some [txData txA]
    ∧ loadDataFromFile decodeBlockData
        (saveDataToFile [] (joinPath dataFolder blockDataFile)
          (encodeArr encodeBlockData []))
        (joinPath dataFolder blockDataFile) = some []
    ∧ loadDataFromFile decodeTxMetricsData
        (saveDataToFile [] (joinPath dataFolder txMetricsFile)
          (encodeArr encodeTxMetricsData
            [{ account := 10, blobCount := 2, blobGasFeeCap := 10, txTime := 0 }]))
        (joinPath dataFolder txMetricsFile) =
        some [{ account := 10, blobCount := 2, blobGasFeeCap := 10, txTime := 0 }]
    ∧ loadDataFromFile decodeTxInclusionData
        (saveDataToFile [] (joinPath dataFolder txInclusionFile)
          (encodeArr encodeTxInclusionData []))
        (joinPath dataFolder txInclusionFile) = some [] :=
  save_load_roundtrip [] [txData txA] []
    [{ account := 10, blobCount := 2, blobGasFeeCap := 10, txTime := 0 }] []
